import Mathlib

/-!
# Verification of the iOS Triangulation detector's correlation engine

Shallow embedding of `ios_triangulation_detector/__init__.py`
(class `IOSFilesystemChecker`): the event/timeline data model, the
sliding-window heuristic engine (`run_heuristics`, the window loop of
`scan_filesystem`), the exact matcher of `_check_analytics_data`, and the
report formatter `detection_to_string`.  Timestamps are modelled as
rationals; Python tuples `('M', path)` become the `Event` structure, and
Python detection tuples `('exact', src, id)` / `('heuristics', window)`
become a tag string paired with a payload.
-/

namespace IOSTri

/-- Timestamps: seconds since the Unix epoch.  The source carries float
timestamps but only ever adds the constant epoch offset, subtracts two
timestamps, and compares the difference against a bound, so the engine is
parametric in the number representation; integers model those operations
exactly and keep every definition evaluable. -/
abbrev Timestamp := ℤ

/-- A timeline event: Python tuple `(event_type, detail)`. -/
structure Event where
  type : String
  detail : String
deriving DecidableEq, Repr

/-- An entry of the expanded timeline: Python tuple `(timestamp, event)`. -/
abbrev TimedEvent := Timestamp × Event

/-- Payload of a detection tuple: either the `(source, identifier)` tail of
an `('exact', source, identifier)` tuple, or the event window of a
`('heuristics', event_window)` tuple. -/
inductive DetectionData where
  | idMatch (source identifier : String)
  | evWindow (w : List TimedEvent)
deriving DecidableEq, Repr

/-- A detection as appended to `self.detections`: the leading tag string of
the Python tuple together with the rest of the tuple. -/
structure Detection where
  tag : String
  data : DetectionData
deriving DecidableEq, Repr

/-! ## `run_heuristics` -/

/-- The substring marker `'Library/SMS/Attachments/'` of line 40. -/
def attachmentMarker : String := "Library/SMS/Attachments/"

/-- Python `str.split(sep)` over character lists, for a non-empty
separator: scan left to right, emit the accumulated piece (held reversed
in `acc`) at each separator occurrence and skip the separator.  The fuel
is bounded by the text length, which suffices because every step consumes
at least one character. -/
def splitOnCharsAux (sep : List Char) : Nat → List Char → List Char → List (List Char)
  | _, [], acc => [acc.reverse]
  | 0, l, acc => [acc.reverse ++ l]
  | fuel + 1, c :: rest, acc =>
    if sep.isPrefixOf (c :: rest) then
      acc.reverse :: splitOnCharsAux sep fuel ((c :: rest).drop sep.length) []
    else
      splitOnCharsAux sep fuel rest (c :: acc)

/-- Python `str.split(sep)` over character lists. -/
def splitOnChars (sep l : List Char) : List (List Char) :=
  splitOnCharsAux sep l.length l []

/-- Python `s.split(sep)` for a non-empty separator. -/
def pySplit (sep : String) (s : String) : List String :=
  (splitOnChars sep.toList s.toList).map fun cs => ⟨cs⟩

/-- Python `'Library/SMS/Attachments/' in path`: the marker occurs in the
path iff splitting on it yields at least two pieces. -/
def containsMarker (path : String) : Bool :=
  2 ≤ (pySplit attachmentMarker path).length

/-- Line 44: `path.split('Library/SMS/Attachments/')[1].split('/')` —
the components of the path segment after the first marker occurrence. -/
def pathParts (path : String) : List String :=
  pySplit ("/") ((pySplit attachmentMarker path).getD 1 (""))

/-- Python `set.add` on the `event_classes` set, modelled as a
duplicate-free list: membership and cardinality are the only observations
the source makes. -/
def addClass (c : String) (classes : List String) : List String :=
  if c ∈ classes then classes else classes ++ [c]

/-- State of the classification loop of `run_heuristics` (lines 31–57):
`smsDirs` models the nested dict `sms_attachment_directories`
(pairs `(path, event_type)` recorded so far — only membership is ever
read), `classes` the set `event_classes`. -/
structure ClassState where
  smsDirs : List (String × String)
  classes : List String
deriving DecidableEq, Repr

/-- Initial loop state: empty dict, empty set. -/
def initState : ClassState := ⟨[], []⟩

/-- One iteration of the loop body (lines 36–57).  `none` models the
`return` of line 51 that disqualifies the whole window. -/
def classifyEvent (st : ClassState) (ev : Event) : Option ClassState :=
  if ev.type = "M" ∨ ev.type = "C" ∨ ev.type = "B" then
    if containsMarker ev.detail then
      if (pathParts ev.detail).length ≤ 2 then
        some { st with smsDirs := st.smsDirs ++ [(ev.detail, ev.type)] }
      else
        none
    else
      some { st with classes := addClass ("file") st.classes }
  else if ev.type = "NetTimestamp" ∨ ev.type = "NetUsage" ∨
      ev.type = "NetFirst" ∨ ev.type = "NetTimestamp2" then
    some { st with classes := addClass ("net") st.classes }
  else if ev.type = "LocationTimeStopped" then
    some { st with classes := addClass ("location") st.classes }
  else
    some st

/-- The classification loop over the window; `none` when some event
disqualified the window. -/
def classifyWindow (st : ClassState) : List TimedEvent → Option ClassState
  | [] => some st
  | (_, ev) :: rest =>
    match classifyEvent st ev with
    | none => none
    | some st' => classifyWindow st' rest

/-- Lines 60–62: every tracked attachment path must have both an `'M'` and
a `'C'` event recorded. -/
def dirsComplete (dirs : List (String × String)) : Bool :=
  (dirs.map Prod.fst).all fun p => (p, "M") ∈ dirs ∧ (p, "C") ∈ dirs

/-- Lines 64–65: the final class set — `'sms'` is added when at least one
attachment path is tracked. -/
def finalClasses (st : ClassState) : List String :=
  if st.smsDirs.length > 0 then addClass ("sms") st.classes else st.classes

/-- Line 68. -/
def detection_threshold : Nat := 2

/-- `run_heuristics(event_window)` (lines 29–70), modelled by its effect on
`self.detections`: `Except.error` models the `IndexError` of line 32 on an
empty window, `.ok none` the paths that append nothing, and
`.ok (some (t, d))` the single `append_detection` of line 70. -/
def run_heuristics (event_window : List TimedEvent) :
    Except String (Option (Timestamp × Detection)) :=
  match event_window with
  | [] => .error ("IndexError: event_window[0]")
  | (timestamp_start, _) :: _ =>
    match classifyWindow initState event_window with
    | none => .ok none
    | some st =>
      if dirsComplete st.smsDirs then
        if detection_threshold ≤ (finalClasses st).length then
          .ok (some (timestamp_start, ⟨"heuristics", .evWindow event_window⟩))
        else
          .ok none
      else
        .ok none

/-! ## The sliding-window loop of `scan_filesystem` (lines 97–114) -/

/-- Line 103: `events_max = 10`. -/
def events_max : Nat := 10

/-- Line 104: `time_delta_max = 60*5`. -/
def time_delta_max : Timestamp := 60 * 5

/-- The inner trimming loop (lines 108–112): truncate at the first event
whose timestamp exceeds `timestamp_start + time_delta_max`. -/
def trim_window (timestamp_start : Timestamp) : List TimedEvent → List TimedEvent
  | [] => []
  | e :: rest =>
    if time_delta_max < e.1 - timestamp_start then []
    else e :: trim_window timestamp_start rest

/-- Line 105: the loop `for i in range(len(expanded_timeline)-events_max)`
(Python's empty range on a non-positive argument matches truncated `Nat`
subtraction). -/
def anchor_indices (tl : List TimedEvent) : List Nat :=
  List.range (tl.length - events_max)

/-- Lines 106–112: the (possibly trimmed) window anchored at index `i` —
the slice `expanded_timeline[i:i+events_max]` trimmed around the anchor
timestamp `expanded_timeline[i][0]`. -/
def window_at (tl : List TimedEvent) (i : Nat) : List TimedEvent :=
  match ((tl.drop i).take events_max).head? with
  | none => []
  | some e0 => trim_window e0.1 ((tl.drop i).take events_max)

/-- The whole sliding-window pass: the detections appended by the calls
`self.run_heuristics(event_window)` (line 114), in loop order. -/
def scan_detections (tl : List TimedEvent) : List (Timestamp × Detection) :=
  (anchor_indices tl).filterMap fun i =>
    match run_heuristics (window_at tl i) with
    | .ok (some d) => some d
    | _ => none

/-- Lines 97–100: the timeline dict (timestamp-keyed buckets in insertion
order) flattened in ascending key order — a stable sort of the append
sequence by timestamp. -/
def expand_timeline (tl : List TimedEvent) : List TimedEvent :=
  tl.mergeSort fun a b => a.1 ≤ b.1

/-! ## The exact matcher of `_check_analytics_data` -/

/-- Lines 184 and 205. -/
def process_IOCs_exact : List String := ["BackupAgent"]

/-- Lines 185 and 206. -/
def process_IOCs_implicit : List String :=
  ["nehelper", "com.apple.WebKit.WebContent",
   "powerd/com.apple.datausage.diagnostics",
   "lockdownd/com.apple.datausage.security"]

/-- Lines 202 and 240: `cocoa_delta = 978307200.0`, the 2001-01-01 UTC
epoch offset. -/
def cocoa_delta : Timestamp := 978307200

/-- What one artifact record contributes: `append_detection` calls and
`append_timeline` calls, in program order. -/
structure MatcherOutput where
  detections : List (Timestamp × Detection)
  timeline : List TimedEvent
deriving DecidableEq, Repr

/-- Lines 187–191: one package of the `netUsageBaseline` dict of the OS
analytics plist; `ts` is the record's timestamp (already Unix, via
`datetime.timestamp()`). -/
def check_net_usage_package (package : String) (ts : Timestamp) : MatcherOutput :=
  { detections :=
      if package ∈ process_IOCs_exact then
        [(ts, ⟨"exact", .idMatch ("NetUsage") package⟩)]
      else []
    timeline :=
      if package ∈ process_IOCs_implicit ∨ package ∈ process_IOCs_exact then
        [(ts, ⟨"NetUsage", package⟩)]
      else [] }

/-- A row of the `ZLIVEUSAGE`/`ZPROCESS` union query (lines 209–212):
the three timestamp columns are raw Cocoa-epoch values, the last one
nullable. -/
structure DataUsageRow where
  first_timestamp : Timestamp
  proc_timestamp : Timestamp
  procname : String
  live_timestamp : Option Timestamp
deriving DecidableEq, Repr

/-- Lines 214–223: processing of one `DataUsage.sqlite` row. -/
def process_datausage_row (r : DataUsageRow) : MatcherOutput :=
  if r.procname ∈ process_IOCs_exact then
    { detections :=
        [(cocoa_delta + r.first_timestamp, ⟨"exact", .idMatch ("NetFirst") r.procname⟩),
         (cocoa_delta + r.proc_timestamp, ⟨"exact", .idMatch ("NetTimestamp") r.procname⟩)] ++
        (match r.live_timestamp with
         | some t => [(cocoa_delta + t, ⟨"exact", .idMatch ("NetTimestamp2") r.procname⟩)]
         | none => [])
      timeline := [] }
  else if r.procname ∈ process_IOCs_implicit then
    { detections := []
      timeline :=
        [(cocoa_delta + r.first_timestamp, ⟨"NetFirst", r.procname⟩),
         (cocoa_delta + r.proc_timestamp, ⟨"NetTimestamp", r.procname⟩)] ++
        (match r.live_timestamp with
         | some t => [(cocoa_delta + t, ⟨"NetTimestamp2", r.procname⟩)]
         | none => []) }
  else
    ⟨[], []⟩

/-- Lines 235–238. -/
def location_client_IOCs : List String :=
  ["com.apple.locationd.bundle-/System/Library/LocationBundles/IonosphereHarvest.bundle",
   "com.apple.locationd.bundle-/System/Library/LocationBundles/WRMLinkSelection.bundle"]

/-- Lines 242–245: one entry of `locationd/clients.plist`; `stopped` is
the raw Cocoa-epoch `LocationTimeStopped` value when the key is present. -/
def process_location_client (package : String) (stopped : Option Timestamp) :
    List TimedEvent :=
  match stopped with
  | some t =>
    if package ∈ location_client_IOCs then
      [(cocoa_delta + t, ⟨"LocationTimeStopped", package⟩)]
    else []
  | none => []

/-! ## The file-metadata collectors -/

/-- One stat record of `_check_sms_attachments` / `_check_system_plists`
(lines 134–136 and 166–168): three timeline events per path. -/
def file_metadata_events (rel_path : String) (mtime ctime birthtime : Timestamp) :
    List TimedEvent :=
  [(mtime, ⟨"M", rel_path⟩), (ctime, ⟨"C", rel_path⟩), (birthtime, ⟨"B", rel_path⟩)]

/-! ## The whole `scan_filesystem` pipeline over abstract artifact inputs -/

/-- The artifact records the collectors extract (I/O abstracted away):
stat records of attachment directories and system plists, the
`netUsageBaseline` entries, the `DataUsage.sqlite` rows, and the
locationd client entries. -/
structure ScanInput where
  file_records : List (String × Timestamp × Timestamp × Timestamp)
  net_usage_baseline : List (String × Timestamp)
  datausage_rows : List DataUsageRow
  location_clients : List (String × Option Timestamp)
deriving Repr

/-- All `append_timeline` calls of a scan, in collection order. -/
def collect_timeline (inp : ScanInput) : List TimedEvent :=
  (inp.file_records.flatMap fun r => file_metadata_events r.1 r.2.1 r.2.2.1 r.2.2.2) ++
  (inp.net_usage_baseline.flatMap fun r => (check_net_usage_package r.1 r.2).timeline) ++
  (inp.datausage_rows.flatMap fun r => (process_datausage_row r).timeline) ++
  (inp.location_clients.flatMap fun r => process_location_client r.1 r.2)

/-- All `append_detection` calls made by the exact matcher, in collection
order. -/
def collect_exact_detections (inp : ScanInput) : List (Timestamp × Detection) :=
  (inp.net_usage_baseline.flatMap fun r => (check_net_usage_package r.1 r.2).detections) ++
  (inp.datausage_rows.flatMap fun r => (process_datausage_row r).detections)

/-- `scan_filesystem` (lines 72–116), as the list of all detections ever
appended to `self.detections`: the exact matcher's plus the heuristic
pass's over the expanded timeline. -/
def scan_filesystem (inp : ScanInput) : List (Timestamp × Detection) :=
  collect_exact_detections inp ++
    scan_detections (expand_timeline (collect_timeline inp))

/-! ## `detection_to_string` (lines 249–269) -/

/-- The known event categories of the formatter's branches
(lines 257–266). -/
def known_event_types : List String :=
  ["M", "C", "B", "LocationTimeStopped",
   "NetTimestamp", "NetUsage", "NetFirst", "NetTimestamp2"]

/-- The line appended for one window event (lines 256–268):
`Except.error` models the `RuntimeError` of line 268. -/
def event_line (ev : Event) : Except String String :=
  if ev.type = "M" then
    .ok ("\n * file modification: " ++ ev.detail)
  else if ev.type = "C" then
    .ok ("\n * file attribute change: " ++ ev.detail)
  else if ev.type = "B" then
    .ok ("\n * file birth: " ++ ev.detail)
  else if ev.type = "LocationTimeStopped" then
    .ok ("\n * location service stopped: " ++ ev.detail)
  else if ev.type = "NetTimestamp" ∨ ev.type = "NetUsage" ∨
      ev.type = "NetFirst" ∨ ev.type = "NetTimestamp2" then
    .ok ("\n * traffic by process " ++ ev.detail)
  else
    .error ("Unknown detection event " ++ ev.type)

/-- The accumulation loop of lines 255–268. -/
def format_window (acc : String) : List TimedEvent → Except String String
  | [] => .ok acc
  | (_, ev) :: rest =>
    match event_line ev with
    | .error e => .error e
    | .ok line => format_window (acc ++ line) rest

/-- `detection_to_string(detection)`: `.ok (some s)` for a returned
string, `.error` for a raised exception, `.ok none` for the implicit
`None` when the tag matches neither branch.  (A tag/payload mismatch
cannot be built by this program; it would raise in Python and is mapped
to `.error`.) -/
def detection_to_string (d : Detection) : Except String (Option String) :=
  if d.tag = "exact" then
    match d.data with
    | .idMatch s i => .ok (some ("Exact match by " ++ s ++ " : " ++ i))
    | .evWindow _ => .error ("IndexError: detection[2]")
  else if d.tag = "heuristics" then
    match d.data with
    | .evWindow w =>
      match format_window ("Suspicious combination of events: ") w with
      | .ok s => .ok (some s)
      | .error e => .error e
    | .idMatch _ _ => .error ("ValueError: unpack")
  else
    .ok none

/-- The line text of a known-category event (the pure content of the
successful branches of `event_line`; arbitrary on unknown categories,
which are only reached under a known-category hypothesis). -/
def event_line_str (ev : Event) : String :=
  if ev.type = "M" then "\n * file modification: " ++ ev.detail
  else if ev.type = "C" then "\n * file attribute change: " ++ ev.detail
  else if ev.type = "B" then "\n * file birth: " ++ ev.detail
  else if ev.type = "LocationTimeStopped" then
    "\n * location service stopped: " ++ ev.detail
  else "\n * traffic by process " ++ ev.detail

/-- Concatenation of the per-event lines of a heuristic report. -/
def concat_lines (lines : List String) : String :=
  lines.foldr (fun a b => a ++ b) ""

/-- The condition of the disqualifying `return` of line 51: a filesystem
event on an attachment-storage path of depth greater than 2. -/
def disqualifies (ev : Event) : Prop :=
  (ev.type = "M" ∨ ev.type = "C" ∨ ev.type = "B") ∧
    containsMarker ev.detail = true ∧ 2 < (pathParts ev.detail).length

instance : DecidablePred disqualifies := fun ev => by
  unfold disqualifies; infer_instance

/-! ## Concrete inputs used by counterexamples and witnesses -/

/-- A window whose attachment path has a Modified but no AttrChanged
event, and whose remaining events span the two classes `net` and
`location`. -/
def c1window : List TimedEvent :=
  [(0, ⟨"M", "Library/SMS/Attachments/ab/12"⟩),
   (1, ⟨"NetUsage", "nehelper"⟩),
   (2, ⟨"LocationTimeStopped", "pkg"⟩)]

/-- A `DataUsage.sqlite` row whose process name is the exact IOC. -/
def c2row : DataUsageRow := ⟨0, 0, "BackupAgent", none⟩

/-- A sequence of exactly `events_max` events, within 300 seconds,
spanning the classes `file` and `net`. -/
def c3seq : List TimedEvent :=
  [(0, ⟨"M", "Library/Preferences/a.plist"⟩),
   (1, ⟨"NetUsage", "nehelper"⟩),
   (2, ⟨"C", "Library/Preferences/a.plist"⟩),
   (3, ⟨"NetFirst", "nehelper"⟩),
   (4, ⟨"B", "Library/Preferences/a.plist"⟩),
   (5, ⟨"NetTimestamp", "nehelper"⟩),
   (6, ⟨"M", "Library/Preferences/b.plist"⟩),
   (7, ⟨"NetTimestamp2", "nehelper"⟩),
   (8, ⟨"C", "Library/Preferences/b.plist"⟩),
   (9, ⟨"NetUsage", "nehelper"⟩)]

/-- A window holding a deep attachment-file path next to two other
event classes. -/
def c4window : List TimedEvent :=
  [(0, ⟨"M", "Library/Preferences/a.plist"⟩),
   (1, ⟨"NetFirst", "nehelper"⟩),
   (2, ⟨"B", "Library/SMS/Attachments/ab/12/file.jpg"⟩)]

/-- A two-class (file + net) window. -/
def c5window : List TimedEvent :=
  [(0, ⟨"M", "Library/Preferences/a.plist"⟩),
   (1, ⟨"NetFirst", "nehelper"⟩)]

/-- An 11-event timeline whose timestamps grow by 100 seconds, so that
the single anchored window is trimmed by the 300-second bound. -/
def c6timeline : List TimedEvent :=
  (List.range 11).map fun n => ((n * 100 : ℤ), ⟨"M", "p"⟩)

/-- A `DataUsage.sqlite` row for an implicit IOC with all three
timestamp columns present. -/
def c7row : DataUsageRow := ⟨0, 5, "nehelper", some 7⟩

/-- A window containing an event category outside the formatter's known
enumeration. -/
def c8window : List TimedEvent :=
  [(0, ⟨"M", "Library/Preferences/a.plist"⟩), (1, ⟨"Bogus", "z"⟩)]

/-- A scan input with a single exact-IOC network-usage baseline record. -/
def c10input : ScanInput :=
  { file_records := [("Library/Preferences/a.plist", 0, 1, 2)]
    net_usage_baseline := [("BackupAgent", 42)]
    datausage_rows := [⟨0, 5, "nehelper", some 7⟩]
    location_clients := [] }

/-! ## Helper lemmas about the classification loop -/

theorem classifyEvent_eq_none_iff (st : ClassState) (ev : Event) :
    classifyEvent st ev = none ↔ disqualifies ev := by
  unfold classifyEvent disqualifies
  split_ifs with h1 h2 h3 h4 h5 <;> simp_all

theorem classifyWindow_eq_none_of_mem (w : List TimedEvent) (t : Timestamp)
    (ev : Event) (hmem : (t, ev) ∈ w) (hd : disqualifies ev) :
    ∀ st, classifyWindow st w = none := by
  induction w with
  | nil => cases hmem
  | cons a rest ih =>
    intro st
    obtain ⟨t0, e0⟩ := a
    rcases List.mem_cons.mp hmem with heq | hrest
    · obtain ⟨rfl, rfl⟩ := Prod.mk.injEq .. ▸ heq
      simp [classifyWindow, (classifyEvent_eq_none_iff st ev).mpr hd]
    · unfold classifyWindow
      cases he : classifyEvent st e0 with
      | none => rfl
      | some st' => exact ih hrest st'

theorem dirsComplete_false_of_missing (dirs : List (String × String)) (p : String)
    (hM : (p, "M") ∈ dirs) (hC : (p, "C") ∉ dirs) :
    ¬ dirsComplete dirs = true := by
  intro h
  unfold dirsComplete at h
  rw [List.all_eq_true] at h
  have := h p (List.mem_map.mpr ⟨(p, "M"), hM, rfl⟩)
  simp only [decide_eq_true_eq] at this
  exact hC this.2

theorem run_heuristics_ok_of_ne_nil (w : List TimedEvent) (hne : w ≠ []) :
    ∃ o, run_heuristics w = .ok o := by
  cases w with
  | nil => exact absurd rfl hne
  | cons a rest =>
    obtain ⟨t0, e0⟩ := a
    unfold run_heuristics
    cases classifyWindow initState ((t0, e0) :: rest) with
    | none => exact ⟨none, rfl⟩
    | some st =>
      by_cases h1 : dirsComplete st.smsDirs = true <;>
        by_cases h2 : detection_threshold ≤ (finalClasses st).length <;>
        simp [h1, h2]

/-! ## C1 -/

/-- C1: the claim asserts that a window whose tracked attachment path has
a Modified but no AttrChanged event still detects via its remaining
classes.  Refuted: on `c1window` (Modified-only attachment path plus a
`net` and a `location` event) the loop state shows two remaining classes,
yet `run_heuristics` appends nothing. -/
theorem c1_counterexample :
    classifyWindow initState c1window =
      some ⟨[("Library/SMS/Attachments/ab/12", "M")], ["net", "location"]⟩ ∧
    run_heuristics c1window = .ok none := by
  constructor <;> rfl

/-- C1 (amended): a window in which some tracked attachment path has a
Modified event but no AttrChanged event yields no heuristic detection at
all — the post-pass validation aborts the whole window, so it cannot
detect via its other classes either (and a fortiori contributes no `sms`
class). -/
theorem c1_incomplete_attachment_path_aborts (w : List TimedEvent)
    (st : ClassState) (hcl : classifyWindow initState w = some st)
    (p : String) (hM : (p, "M") ∈ st.smsDirs) (hC : (p, "C") ∉ st.smsDirs) :
    run_heuristics w = .ok none := by
  cases w with
  | nil =>
    simp [classifyWindow] at hcl
    subst hcl
    cases hM
  | cons a rest =>
    obtain ⟨t0, e0⟩ := a
    unfold run_heuristics
    rw [hcl]
    simp [dirsComplete_false_of_missing st.smsDirs p hM hC]

/-- Closed instance of the C1 amendment at `c1window`. -/
theorem c1_witness : run_heuristics c1window = .ok none :=
  c1_incomplete_attachment_path_aborts c1window
    ⟨[("Library/SMS/Attachments/ab/12", "M")], ["net", "location"]⟩
    (by rfl) ("Library/SMS/Attachments/ab/12") (by decide) (by decide)

/-! ## C4 -/

/-- C4: a window containing a file-category event whose attachment path
splits into more than 2 components after the marker is disqualified in
its entirety: `run_heuristics` appends no detection, regardless of the
other events of the window. -/
theorem c4_deep_path_disqualifies_window (w : List TimedEvent)
    (t : Timestamp) (ev : Event) (hmem : (t, ev) ∈ w)
    (htype : ev.type = "M" ∨ ev.type = "C" ∨ ev.type = "B")
    (hmark : containsMarker ev.detail = true)
    (hdepth : 2 < (pathParts ev.detail).length) :
    run_heuristics w = .ok none := by
  have hd : disqualifies ev := ⟨htype, hmark, hdepth⟩
  cases w with
  | nil => cases hmem
  | cons a rest =>
    obtain ⟨t0, e0⟩ := a
    unfold run_heuristics
    rw [classifyWindow_eq_none_of_mem _ t ev hmem hd]

/-- Closed instance of C4 at `c4window`: the deep attachment-file path
suppresses the window despite its `file` and `net` events. -/
theorem c4_witness : run_heuristics c4window = .ok none :=
  c4_deep_path_disqualifies_window c4window 2
    ⟨"B", "Library/SMS/Attachments/ab/12/file.jpg"⟩
    (by decide) (by decide) (by decide) (by decide)

/-! ## C3 -/

/-- C3: the claim asserts a window anchored at every index from 0 to
`len − W` inclusive, so that a sequence of exactly `W` events yields one
evaluated window.  Refuted: `c3seq` has exactly `events_max` events and
would detect (it spans the `file` and `net` classes within the time
bound), yet the loop of line 105 evaluates zero windows and records zero
detections. -/
theorem c3_counterexample :
    c3seq.length = events_max ∧ anchor_indices c3seq = [] ∧
    scan_detections c3seq = [] ∧
    run_heuristics c3seq = .ok (some (0, ⟨"heuristics", .evWindow c3seq⟩)) := by
  refine ⟨rfl, rfl, rfl, ?_⟩
  rfl

/-- C3 (amended): the loop `for i in range(len(expanded_timeline) -
events_max)` anchors a window at every index `i` with
`i + events_max < len` — that is, `0` to `len − W − 1` inclusive; a
sequence of exactly `W` events therefore yields zero evaluated windows,
and any sequence of at most `W` events yields zero evaluated windows and
zero heuristic detections. -/
theorem c3_anchor_range (tl : List TimedEvent) :
    (∀ i, i ∈ anchor_indices tl ↔ i + events_max < tl.length) ∧
    (tl.length ≤ events_max → anchor_indices tl = [] ∧ scan_detections tl = []) := by
  constructor
  · intro i
    rw [anchor_indices, List.mem_range]
    omega
  · intro h
    have h0 : tl.length - events_max = 0 := by omega
    refine ⟨?_, ?_⟩ <;> simp [scan_detections, anchor_indices, h0]

/-- Closed instance of the C3 amendment at `c3seq` and `c6timeline`. -/
theorem c3_witness :
    (anchor_indices c3seq = [] ∧ scan_detections c3seq = []) ∧
    (0 ∈ anchor_indices c6timeline ↔ 0 + events_max < c6timeline.length) :=
  ⟨(c3_anchor_range c3seq).2 (by decide), (c3_anchor_range c6timeline).1 0⟩

/-! ## Class-set invariants of the classification loop -/

theorem addClass_nodup (c : String) (l : List String) (h : l.Nodup) :
    (addClass c l).Nodup := by
  unfold addClass
  split_ifs with hc
  · exact h
  · simp [List.nodup_append, h, hc]

theorem addClass_mem (c : String) (l : List String) :
    ∀ x ∈ addClass c l, x = c ∨ x ∈ l := by
  intro x hx
  unfold addClass at hx
  split_ifs at hx with hc
  · exact Or.inr hx
  · rcases List.mem_append.mp hx with h | h
    · exact Or.inr h
    · exact Or.inl (List.mem_singleton.mp h)

theorem addClass_invariant (cl : String) (st : ClassState) (hnd : st.classes.Nodup)
    (hcl : cl ∈ ["file", "net", "location"]) :
    (addClass cl st.classes).Nodup ∧
      ∀ c ∈ addClass cl st.classes, c ∈ ["file", "net", "location"] ∨ c ∈ st.classes := by
  refine ⟨addClass_nodup _ _ hnd, fun c hc => ?_⟩
  rcases addClass_mem _ _ c hc with rfl | hmem
  · exact Or.inl hcl
  · exact Or.inr hmem

theorem classifyEvent_classes (st st' : ClassState) (ev : Event)
    (h : classifyEvent st ev = some st') (hnd : st.classes.Nodup) :
    st'.classes.Nodup ∧
      ∀ c ∈ st'.classes, c ∈ ["file", "net", "location"] ∨ c ∈ st.classes := by
  unfold classifyEvent at h
  split_ifs at h with h1 h2 h3 h4 h5 <;>
    first
      | (injection h with h; subst h; exact ⟨hnd, fun c hc => Or.inr hc⟩)
      | (injection h with h; subst h; exact addClass_invariant _ st hnd (by simp))

theorem classifyWindow_classes (w : List TimedEvent) :
    ∀ st st', classifyWindow st w = some st' → st.classes.Nodup →
      st'.classes.Nodup ∧
        ∀ c ∈ st'.classes, c ∈ ["file", "net", "location"] ∨ c ∈ st.classes := by
  induction w with
  | nil =>
    intro st st' h hnd
    simp [classifyWindow] at h
    subst h
    exact ⟨hnd, fun c hc => Or.inr hc⟩
  | cons a rest ih =>
    intro st st' h hnd
    obtain ⟨t, ev⟩ := a
    unfold classifyWindow at h
    cases he : classifyEvent st ev with
    | none => rw [he] at h; cases h
    | some st1 =>
      rw [he] at h
      obtain ⟨h1, h2⟩ := classifyEvent_classes st st1 ev he hnd
      obtain ⟨h3, h4⟩ := ih st1 st' h h1
      refine ⟨h3, fun c hc => ?_⟩
      rcases h4 c hc with hin | hin
      · exact Or.inl hin
      · exact h2 c hin

/-! ## C5 -/

/-- C5: for a window that survives classification (no disqualifying
event) and whose tracked attachment paths are all complete, the engine
appends exactly one heuristic detection — keyed at the window's first
timestamp with the window itself as evidence — iff the distinct classes
among file/net/location/sms number at least the threshold 2, and
otherwise appends nothing. -/
theorem c5_detection_rule (w : List TimedEvent) (t0 : Timestamp) (e0 : Event)
    (hh : w.head? = some (t0, e0)) (st : ClassState)
    (hcl : classifyWindow initState w = some st)
    (hcomp : dirsComplete st.smsDirs = true) :
    (finalClasses st).Nodup ∧
    (∀ c ∈ finalClasses st, c ∈ ["file", "net", "location", "sms"]) ∧
    run_heuristics w =
      .ok (if detection_threshold ≤ (finalClasses st).length
           then some (t0, ⟨"heuristics", .evWindow w⟩)
           else none) := by
  obtain ⟨hnd, hsub⟩ := classifyWindow_classes w initState st hcl List.nodup_nil
  have hnd' : (finalClasses st).Nodup := by
    unfold finalClasses
    split_ifs
    · exact addClass_nodup _ _ hnd
    · exact hnd
  have hsub' : ∀ c ∈ finalClasses st, c ∈ ["file", "net", "location", "sms"] := by
    intro c hc
    unfold finalClasses at hc
    split_ifs at hc
    · rcases addClass_mem _ _ c hc with rfl | hmem
      · simp
      · rcases hsub c hmem with hin | hin
        · simp only [List.mem_cons] at hin ⊢
          tauto
        · cases hin
    · rcases hsub c hc with hin | hin
      · simp only [List.mem_cons] at hin ⊢
        tauto
      · cases hin
  refine ⟨hnd', hsub', ?_⟩
  cases w with
  | nil => cases hh
  | cons a rest =>
    obtain ⟨t, e⟩ := a
    rw [List.head?_cons, Option.some.injEq, Prod.mk.injEq] at hh
    obtain ⟨rfl, rfl⟩ := hh
    unfold run_heuristics
    rw [hcl]
    by_cases hth : detection_threshold ≤ (finalClasses st).length <;>
      simp [hcomp, hth]

/-- Closed instance of C5 at the two-class window `c5window`. -/
theorem c5_witness :
    run_heuristics c5window =
      .ok (if detection_threshold ≤
            (finalClasses ⟨[], ["file", "net"]⟩).length
           then some (0, ⟨"heuristics", .evWindow c5window⟩)
           else none) :=
  (c5_detection_rule c5window 0 ⟨"M", "Library/Preferences/a.plist"⟩ (by rfl)
    ⟨[], ["file", "net"]⟩ (by rfl) (by rfl)).2.2

/-! ## Trimming lemmas -/

theorem trim_window_isPrefix (ts : Timestamp) (l : List TimedEvent) :
    List.IsPrefix (trim_window ts l) l := by
  induction l with
  | nil => exact List.nil_prefix
  | cons e rest ih =>
    unfold trim_window
    split_ifs
    · exact List.nil_prefix
    · obtain ⟨t, ht⟩ := ih
      exact ⟨t, by rw [List.cons_append, ht]⟩

theorem trim_window_bound (ts : Timestamp) (l : List TimedEvent) :
    ∀ e ∈ trim_window ts l, e.1 - ts ≤ time_delta_max := by
  induction l with
  | nil => intro e he; cases he
  | cons a rest ih =>
    unfold trim_window
    split_ifs with hgt
    · intro e he; cases he
    · intro e he
      rcases List.mem_cons.mp he with rfl | hmem
      · exact le_of_not_lt hgt
      · exact ih e hmem

theorem trim_window_next (ts : Timestamp) (l : List TimedEvent) :
    ∀ e, (l.drop (trim_window ts l).length).head? = some e →
      time_delta_max < e.1 - ts := by
  induction l with
  | nil => intro e he; simp [trim_window] at he
  | cons a rest ih =>
    intro e he
    unfold trim_window at he
    split_ifs at he with hgt
    · simp at he; subst he; exact hgt
    · rw [List.length_cons, List.drop_succ_cons] at he
      exact ih e he

theorem trim_window_cons (ts : Timestamp) (e : TimedEvent)
    (rest : List TimedEvent) :
    trim_window ts (e :: rest) =
      if time_delta_max < e.1 - ts then [] else e :: trim_window ts rest := rfl

theorem trim_window_cons_of_le (ts : Timestamp) (e : TimedEvent)
    (rest : List TimedEvent) (h : e.1 - ts ≤ time_delta_max) :
    trim_window ts (e :: rest) = e :: trim_window ts rest := by
  rw [trim_window_cons, if_neg (not_lt.mpr h)]

theorem head?_drop_eq (tl : List TimedEvent) (i : Nat) :
    (tl.drop i).head? = tl[i]? := by
  induction tl generalizing i with
  | nil => simp
  | cons x xs ih =>
    cases i with
    | zero => simp
    | succ n => simp [ih n]

theorem window_at_eq (tl : List TimedEvent) (i : Nat) (a : TimedEvent)
    (r : List TimedEvent) (h : tl.drop i = a :: r) :
    window_at tl i = a :: trim_window a.1 (r.take (events_max - 1)) := by
  unfold window_at
  rw [h]
  rw [show ((a :: r).take events_max) = a :: r.take (events_max - 1) from rfl]
  rw [List.head?_cons]
  exact trim_window_cons_of_le a.1 a _ (by norm_num [time_delta_max])

/-! ## C6 -/

/-- C6: the window handed to classification is the prefix of the
`events_max`-event slice ending just before the first event exceeding the
anchor timestamp plus `time_delta_max` — every kept event is within the
bound, the next slice event (when one exists) exceeds it, and the trimmed
window has between 1 and `events_max` events. -/
theorem c6_trim_spec (tl : List TimedEvent) (i : Nat) (_hi : i ∈ anchor_indices tl)
    (a : TimedEvent) (ha : tl[i]? = some a) :
    List.IsPrefix (window_at tl i) ((tl.drop i).take events_max) ∧
    1 ≤ (window_at tl i).length ∧
    (window_at tl i).length ≤ events_max ∧
    (∀ e ∈ window_at tl i, e.1 - a.1 ≤ time_delta_max) ∧
    (∀ e, (((tl.drop i).take events_max).drop (window_at tl i).length).head? = some e →
      time_delta_max < e.1 - a.1) := by
  have hd : (tl.drop i).head? = some a := by rw [head?_drop_eq, ha]
  cases hdrop : tl.drop i with
  | nil => rw [hdrop] at hd; cases hd
  | cons a0 r =>
    rw [hdrop, List.head?_cons, Option.some.injEq] at hd
    obtain rfl : a0 = a := hd
    have hw := window_at_eq tl i a0 r hdrop
    have hew : (a0 :: r).take events_max = a0 :: r.take (events_max - 1) := rfl
    rw [hw, hew]
    refine ⟨?_, ?_, ?_, ?_, ?_⟩
    · obtain ⟨t, ht⟩ := trim_window_isPrefix a0.1 (r.take (events_max - 1))
      exact ⟨t, by rw [List.cons_append, ht]⟩
    · simp
    · have h1 := (trim_window_isPrefix a0.1 (r.take (events_max - 1))).length_le
      have h2 : (r.take (events_max - 1)).length ≤ events_max - 1 :=
        List.length_take_le _ _
      simp only [List.length_cons]
      unfold events_max at h1 h2 ⊢
      omega
    · intro e he
      rcases List.mem_cons.mp he with rfl | hmem
      · simp [time_delta_max]
      · exact trim_window_bound a0.1 _ e hmem
    · intro e he
      rw [List.length_cons, List.drop_succ_cons] at he
      exact trim_window_next a0.1 _ e he

/-- Closed instance of C6 at `c6timeline`, anchor index 0: the window
keeps the four events within 300 seconds of the anchor. -/
theorem c6_witness :
    1 ≤ (window_at c6timeline 0).length ∧
    (window_at c6timeline 0).length ≤ events_max ∧
    (((300 : ℤ), (⟨"M", "p"⟩ : Event)).1 - ((0 : ℤ) * 100) ≤ time_delta_max) := by
  have h := c6_trim_spec c6timeline 0 (by decide) ((0 : ℤ) * 100, ⟨"M", "p"⟩) (by rfl)
  exact ⟨h.2.1, h.2.2.1, h.2.2.2.1 ((300 : ℤ), ⟨"M", "p"⟩) (by decide)⟩

/-! ## C9 -/

/-- C9: every window the sliding loop passes to `run_heuristics` is
non-empty — the trim never drops the anchor event — so the read of the
window's first element never raises. -/
theorem c9_scan_windows_nonempty (tl : List TimedEvent) (i : Nat)
    (hi : i ∈ anchor_indices tl) :
    window_at tl i ≠ [] ∧
    ∃ o, run_heuristics (window_at tl i) = .ok o := by
  have hlen : i < tl.length := by
    rw [anchor_indices, List.mem_range] at hi
    unfold events_max at hi
    omega
  have hd : (tl.drop i).head? = tl[i]? := head?_drop_eq tl i
  rw [List.getElem?_eq_getElem hlen] at hd
  cases hdrop : tl.drop i with
  | nil => rw [hdrop] at hd; cases hd
  | cons a r =>
    rw [window_at_eq tl i a r hdrop]
    exact ⟨List.cons_ne_nil _ _,
      run_heuristics_ok_of_ne_nil _ (List.cons_ne_nil _ _)⟩

/-- Closed instance of C9 at `c6timeline`, anchor index 0. -/
theorem c9_witness : window_at c6timeline 0 ≠ [] :=
  (c9_scan_windows_nonempty c6timeline 0 (by decide)).1

/-! ## C2 -/

/-- C2: the claim asserts that an exact-IOC record also appends a
timeline Event in both artifact families.  Refuted: a `DataUsage.sqlite`
row for `'BackupAgent'` produces exact detections but appends nothing to
the timeline — lines 214–218 contain no `append_timeline` call. -/
theorem c2_counterexample :
    (process_datausage_row c2row).detections ≠ [] ∧
    (process_datausage_row c2row).timeline = [] := by
  constructor
  · decide
  · rfl

/-- C2 (amended): an exact-IOC record yields Exact detections at the
record's (normalized) timestamps in both artifact families, and in the
network-usage plist family it also appends the corresponding timeline
Event — but an exact-IOC row of the usage-tracking database appends no
timeline Event at all. -/
theorem c2_exact_ioc_routing :
    (∀ pkg ts, pkg ∈ process_IOCs_exact →
      (check_net_usage_package pkg ts).detections =
        [(ts, ⟨"exact", .idMatch ("NetUsage") pkg⟩)] ∧
      (check_net_usage_package pkg ts).timeline = [(ts, ⟨"NetUsage", pkg⟩)]) ∧
    (∀ r : DataUsageRow, r.procname ∈ process_IOCs_exact →
      (cocoa_delta + r.first_timestamp,
        (⟨"exact", .idMatch ("NetFirst") r.procname⟩ : Detection)) ∈
          (process_datausage_row r).detections ∧
      (cocoa_delta + r.proc_timestamp,
        (⟨"exact", .idMatch ("NetTimestamp") r.procname⟩ : Detection)) ∈
          (process_datausage_row r).detections ∧
      (∀ t, r.live_timestamp = some t →
        (cocoa_delta + t,
          (⟨"exact", .idMatch ("NetTimestamp2") r.procname⟩ : Detection)) ∈
            (process_datausage_row r).detections) ∧
      (process_datausage_row r).timeline = []) := by
  constructor
  · intro pkg ts hpkg
    unfold check_net_usage_package
    rw [if_pos hpkg, if_pos (Or.inr hpkg)]
    exact ⟨rfl, rfl⟩
  · intro r hr
    unfold process_datausage_row
    rw [if_pos hr]
    refine ⟨by simp, by simp, ?_, rfl⟩
    intro t ht
    rw [ht]
    simp

/-- Closed instance of the C2 amendment at concrete records. -/
theorem c2_witness :
    (check_net_usage_package "BackupAgent" 42).timeline =
      [(42, ⟨"NetUsage", "BackupAgent"⟩)] ∧
    ((cocoa_delta + 1, (⟨"exact", .idMatch ("NetFirst") "BackupAgent"⟩ : Detection)) ∈
      (process_datausage_row ⟨1, 2, "BackupAgent", some 3⟩).detections) ∧
    (process_datausage_row ⟨1, 2, "BackupAgent", some 3⟩).timeline = [] := by
  have h1 := c2_exact_ioc_routing.1 ("BackupAgent") 42 (by decide)
  have h2 := c2_exact_ioc_routing.2 ⟨1, 2, "BackupAgent", some 3⟩ (by decide)
  exact ⟨h1.2, h2.1, h2.2.2.2⟩

/-! ## C7 -/

/-- C7: the Cocoa-to-Unix conversion adds exactly 978307200 seconds
(raw 0 maps to 978307200), and this offset is added to every timestamp
stored from a usage-tracking database row — detections and timeline
events alike — and from a locationd client entry. -/
theorem c7_cocoa_normalization :
    cocoa_delta + 0 = 978307200 ∧
    (∀ r : DataUsageRow,
      ∀ p ∈ (process_datausage_row r).detections,
        p.1 = cocoa_delta + r.first_timestamp ∨
        p.1 = cocoa_delta + r.proc_timestamp ∨
        ∃ t, r.live_timestamp = some t ∧ p.1 = cocoa_delta + t) ∧
    (∀ r : DataUsageRow,
      ∀ e ∈ (process_datausage_row r).timeline,
        e.1 = cocoa_delta + r.first_timestamp ∨
        e.1 = cocoa_delta + r.proc_timestamp ∨
        ∃ t, r.live_timestamp = some t ∧ e.1 = cocoa_delta + t) ∧
    (∀ pkg t, ∀ e ∈ process_location_client pkg (some t), e.1 = cocoa_delta + t) := by
  refine ⟨by decide, ?_, ?_, ?_⟩
  · intro r p hp
    unfold process_datausage_row at hp
    split_ifs at hp
    · cases hlt : r.live_timestamp with
      | none =>
        rw [hlt] at hp
        simp at hp
        rcases hp with rfl | rfl
        · exact Or.inl rfl
        · exact Or.inr (Or.inl rfl)
      | some t =>
        rw [hlt] at hp
        simp at hp
        rcases hp with rfl | rfl | rfl
        · exact Or.inl rfl
        · exact Or.inr (Or.inl rfl)
        · exact Or.inr (Or.inr ⟨t, rfl, rfl⟩)
    · simp at hp
    · simp at hp
  · intro r p hp
    unfold process_datausage_row at hp
    split_ifs at hp
    · simp at hp
    · cases hlt : r.live_timestamp with
      | none =>
        rw [hlt] at hp
        simp at hp
        rcases hp with rfl | rfl
        · exact Or.inl rfl
        · exact Or.inr (Or.inl rfl)
      | some t =>
        rw [hlt] at hp
        simp at hp
        rcases hp with rfl | rfl | rfl
        · exact Or.inl rfl
        · exact Or.inr (Or.inl rfl)
        · exact Or.inr (Or.inr ⟨t, rfl, rfl⟩)
    · simp at hp
  · intro pkg t e he
    unfold process_location_client at he
    split_ifs at he
    · simp at he
      rw [he]
    · simp at he

/-- Closed instance of C7: the conversion at raw value 0, and the offset
on a concrete locationd client entry. -/
theorem c7_witness :
    cocoa_delta + 0 = 978307200 ∧
    ((cocoa_delta + 5,
      (⟨"LocationTimeStopped",
        "com.apple.locationd.bundle-/System/Library/LocationBundles/IonosphereHarvest.bundle"⟩ :
          Event)) : TimedEvent).1 = cocoa_delta + 5 :=
  ⟨c7_cocoa_normalization.1,
   c7_cocoa_normalization.2.2.2
     ("com.apple.locationd.bundle-/System/Library/LocationBundles/IonosphereHarvest.bundle") 5
     (cocoa_delta + 5,
       ⟨"LocationTimeStopped",
        "com.apple.locationd.bundle-/System/Library/LocationBundles/IonosphereHarvest.bundle"⟩)
     (by decide)⟩

/-! ## C8 helper lemmas -/

theorem event_line_known (ev : Event) (h : ev.type ∈ known_event_types) :
    event_line ev = .ok (event_line_str ev) := by
  simp only [known_event_types, List.mem_cons, List.not_mem_nil, or_false] at h
  unfold event_line event_line_str
  rcases h with h | h | h | h | h | h | h | h <;> simp [h]

theorem event_line_unknown (ev : Event) (h : ev.type ∉ known_event_types) :
    event_line ev = .error ("Unknown detection event " ++ ev.type) := by
  simp only [known_event_types, List.mem_cons, List.not_mem_nil, or_false,
    not_or] at h
  obtain ⟨h1, h2, h3, h4, h5, h6, h7, h8⟩ := h
  unfold event_line
  rw [if_neg h1, if_neg h2, if_neg h3, if_neg h4, if_neg (by tauto)]

theorem concat_lines_cons (s : String) (rest : List String) :
    concat_lines (s :: rest) = s ++ concat_lines rest := rfl

theorem format_window_ok (w : List TimedEvent)
    (h : ∀ p ∈ w, p.2.type ∈ known_event_types) :
    ∀ acc, format_window acc w =
      .ok (acc ++ concat_lines (w.map fun p => event_line_str p.2)) := by
  induction w with
  | nil =>
    intro acc
    simp [format_window, concat_lines]
  | cons a rest ih =>
    intro acc
    obtain ⟨t, ev⟩ := a
    have hk := h (t, ev) (List.mem_cons_self _ _)
    have hrest : ∀ p ∈ rest, p.2.type ∈ known_event_types :=
      fun p hp => h p (List.mem_cons_of_mem _ hp)
    simp only [format_window, event_line_known ev hk]
    rw [ih hrest (acc ++ event_line_str ev)]
    simp [concat_lines_cons, String.append_assoc]

theorem format_window_error (w : List TimedEvent)
    (h : ∃ p ∈ w, p.2.type ∉ known_event_types) :
    ∀ acc, ∃ msg, format_window acc w = .error msg := by
  induction w with
  | nil => simp at h
  | cons a rest ih =>
    intro acc
    obtain ⟨t, ev⟩ := a
    by_cases hk : ev.type ∈ known_event_types
    · have hrest : ∃ p ∈ rest, p.2.type ∉ known_event_types := by
        obtain ⟨p, hp, hnp⟩ := h
        rcases List.mem_cons.mp hp with rfl | hmem
        · exact absurd hk hnp
        · exact ⟨p, hmem, hnp⟩
      obtain ⟨msg, hmsg⟩ := ih hrest (acc ++ event_line_str ev)
      refine ⟨msg, ?_⟩
      simp only [format_window, event_line_known ev hk]
      exact hmsg
    · exact ⟨"Unknown detection event " ++ ev.type,
        by simp [format_window, event_line_unknown ev hk]⟩

theorem detection_to_string_heuristics_ok (w : List TimedEvent)
    (h : ∀ p ∈ w, p.2.type ∈ known_event_types) :
    ∃ s, detection_to_string ⟨"heuristics", .evWindow w⟩ = .ok (some s) :=
  ⟨"Suspicious combination of events: " ++
      concat_lines (w.map fun p => event_line_str p.2), by
    simp [detection_to_string,
      format_window_ok w h ("Suspicious combination of events: ")]⟩

/-! ## C8 -/

/-- C8: formatting a heuristic detection raises when some evidence event
carries a category outside the known enumeration, and for an all-known
window returns the header string followed by one category-specific line
per event. -/
theorem c8_formatter_known_categories (w : List TimedEvent) :
    ((∃ p ∈ w, p.2.type ∉ known_event_types) →
      ∃ msg, detection_to_string ⟨"heuristics", .evWindow w⟩ = .error msg) ∧
    ((∀ p ∈ w, p.2.type ∈ known_event_types) →
      detection_to_string ⟨"heuristics", .evWindow w⟩ =
        .ok (some ("Suspicious combination of events: " ++
          concat_lines (w.map fun p => event_line_str p.2))) ∧
      ∀ p ∈ w, event_line p.2 = .ok (event_line_str p.2)) := by
  constructor
  · intro h
    obtain ⟨msg, hmsg⟩ :=
      format_window_error w h ("Suspicious combination of events: ")
    exact ⟨msg, by simp [detection_to_string, hmsg]⟩
  · intro h
    refine ⟨?_, fun p hp => event_line_known p.2 (h p hp)⟩
    simp [detection_to_string,
      format_window_ok w h ("Suspicious combination of events: ")]

/-- Closed instance of C8 at the all-known window `c5window`. -/
theorem c8_witness :
    detection_to_string ⟨"heuristics", .evWindow c5window⟩ =
      .ok (some ("Suspicious combination of events: " ++
        concat_lines (c5window.map fun p => event_line_str p.2))) :=
  ((c8_formatter_known_categories c5window).2 (by decide)).1

/-! ## C10 helper lemmas -/

theorem run_heuristics_cons (t : Timestamp) (e : Event) (rest : List TimedEvent) :
    run_heuristics ((t, e) :: rest) =
      match classifyWindow initState ((t, e) :: rest) with
      | none => .ok none
      | some st =>
        if dirsComplete st.smsDirs then
          if detection_threshold ≤ (finalClasses st).length then
            .ok (some (t, ⟨"heuristics", .evWindow ((t, e) :: rest)⟩))
          else .ok none
        else .ok none := rfl

theorem mem_window_at (tl : List TimedEvent) (i : Nat) (e : TimedEvent)
    (he : e ∈ window_at tl i) : e ∈ tl := by
  unfold window_at at he
  cases hh : ((tl.drop i).take events_max).head? with
  | none =>
    rw [hh] at he
    cases he
  | some a =>
    rw [hh] at he
    have h1 : e ∈ (tl.drop i).take events_max :=
      (trim_window_isPrefix a.1 _).sublist.subset he
    exact List.drop_subset _ _ (List.take_subset _ _ h1)

theorem mem_expand_timeline (tl : List TimedEvent) (e : TimedEvent) :
    e ∈ expand_timeline tl ↔ e ∈ tl :=
  (List.mergeSort_perm tl _).mem_iff

theorem collect_timeline_known (inp : ScanInput) :
    ∀ e ∈ collect_timeline inp, e.2.type ∈ known_event_types := by
  intro e he
  unfold collect_timeline at he
  simp only [List.mem_append, List.mem_flatMap] at he
  rcases he with ((⟨r, hr, he⟩ | ⟨r, hr, he⟩) | ⟨r, hr, he⟩) | ⟨r, hr, he⟩
  · unfold file_metadata_events at he
    simp at he
    rcases he with rfl | rfl | rfl <;> simp [known_event_types]
  · simp only [check_net_usage_package] at he
    split_ifs at he
    · simp at he
      rw [he]
      simp [known_event_types]
    · simp at he
  · unfold process_datausage_row at he
    split_ifs at he
    · simp at he
    · cases hlt : r.live_timestamp with
      | none =>
        rw [hlt] at he
        simp at he
        rcases he with rfl | rfl <;> simp [known_event_types]
      | some t =>
        rw [hlt] at he
        simp at he
        rcases he with rfl | rfl | rfl <;> simp [known_event_types]
    · simp at he
  · unfold process_location_client at he
    cases hlt : r.2 with
    | none =>
      rw [hlt] at he
      cases he
    | some t =>
      rw [hlt] at he
      split_ifs at he
      · simp at he
        rw [he]
        simp [known_event_types]
      · simp at he

theorem collect_exact_shape (inp : ScanInput) :
    ∀ p ∈ collect_exact_detections inp,
      ∃ s i, p.2 = ⟨"exact", .idMatch s i⟩ := by
  intro p hp
  unfold collect_exact_detections at hp
  simp only [List.mem_append, List.mem_flatMap] at hp
  rcases hp with ⟨r, hr, hp⟩ | ⟨r, hr, hp⟩
  · simp only [check_net_usage_package] at hp
    split_ifs at hp
    · simp at hp
      rw [hp]
      exact ⟨_, _, rfl⟩
    · simp at hp
  · unfold process_datausage_row at hp
    split_ifs at hp
    · cases hlt : r.live_timestamp with
      | none =>
        rw [hlt] at hp
        simp at hp
        rcases hp with rfl | rfl <;> exact ⟨_, _, rfl⟩
      | some t =>
        rw [hlt] at hp
        simp at hp
        rcases hp with rfl | rfl | rfl <;> exact ⟨_, _, rfl⟩
    · simp at hp
    · simp at hp

theorem run_heuristics_some_shape (w : List TimedEvent) (t : Timestamp)
    (d : Detection) (h : run_heuristics w = .ok (some (t, d))) :
    d = ⟨"heuristics", .evWindow w⟩ := by
  cases w with
  | nil => simp [run_heuristics] at h
  | cons a rest =>
    obtain ⟨t0, e0⟩ := a
    rw [run_heuristics_cons] at h
    cases hcl : classifyWindow initState ((t0, e0) :: rest) with
    | none =>
      rw [hcl] at h
      have h0 : (Except.ok none : Except String (Option (Timestamp × Detection))) =
          .ok (some (t, d)) := h
      simp at h0
    | some st =>
      rw [hcl] at h
      have h1 : (if dirsComplete st.smsDirs then
            if detection_threshold ≤ (finalClasses st).length then
              (Except.ok (some (t0,
                (⟨"heuristics", .evWindow ((t0, e0) :: rest)⟩ : Detection))) :
                  Except String (Option (Timestamp × Detection)))
            else .ok none
          else .ok none) = .ok (some (t, d)) := h
      split_ifs at h1 <;> simp at h1
      exact h1.2.symm

theorem scan_detections_mem (tl : List TimedEvent) (p : Timestamp × Detection)
    (hp : p ∈ scan_detections tl) :
    ∃ j, run_heuristics (window_at tl j) = .ok (some p) := by
  unfold scan_detections at hp
  obtain ⟨j, hj, hrun⟩ := List.mem_filterMap.mp hp
  refine ⟨j, ?_⟩
  cases hres : run_heuristics (window_at tl j) with
  | error e =>
    rw [hres] at hrun
    have h0 : (none : Option (Timestamp × Detection)) = some p := hrun
    cases h0
  | ok o =>
    cases o with
    | none =>
      rw [hres] at hrun
      have h0 : (none : Option (Timestamp × Detection)) = some p := hrun
      cases h0
    | some q =>
      rw [hres] at hrun
      have h0 : some q = some p := hrun
      injection h0 with h0
      rw [h0]

/-! ## C10 -/

/-- C10: every detection the scan ever appends to the registry carries
the tag `exact` or `heuristics` and is rendered to a string by
`detection_to_string`; for any detection with a different tag the
formatter falls through both branches and returns no string. -/
theorem c10_registry_renderable (inp : ScanInput) :
    (∀ p ∈ scan_filesystem inp,
      (p.2.tag = "exact" ∨ p.2.tag = "heuristics") ∧
      ∃ s, detection_to_string p.2 = .ok (some s)) ∧
    (∀ d : Detection, d.tag ≠ "exact" → d.tag ≠ "heuristics" →
      detection_to_string d = .ok none) := by
  constructor
  · intro p hp
    unfold scan_filesystem at hp
    rcases List.mem_append.mp hp with hp | hp
    · obtain ⟨s, i, h2⟩ := collect_exact_shape inp p hp
      rw [h2]
      exact ⟨Or.inl rfl, ⟨_, rfl⟩⟩
    · obtain ⟨j, hrun⟩ :=
        scan_detections_mem (expand_timeline (collect_timeline inp)) p hp
      obtain ⟨pt, pd⟩ := p
      have hshape :=
        run_heuristics_some_shape
          (window_at (expand_timeline (collect_timeline inp)) j) pt pd hrun
      have hknown : ∀ q ∈ window_at (expand_timeline (collect_timeline inp)) j,
          q.2.type ∈ known_event_types := fun q hq =>
        collect_timeline_known inp q
          ((mem_expand_timeline (collect_timeline inp) q).mp
            (mem_window_at _ j q hq))
      rw [hshape]
      exact ⟨Or.inr rfl, detection_to_string_heuristics_ok _ hknown⟩
  · intro d h1 h2
    unfold detection_to_string
    rw [if_neg h1, if_neg h2]

/-- Closed instance of C10 at `c10input`: the single exact detection the
scan appends is tagged `exact`. -/
theorem c10_witness :
    (((42 : ℤ), (⟨"exact", .idMatch ("NetUsage") "BackupAgent"⟩ : Detection)).2.tag = "exact" ∨
     ((42 : ℤ), (⟨"exact", .idMatch ("NetUsage") "BackupAgent"⟩ : Detection)).2.tag = "heuristics") :=
  ((c10_registry_renderable c10input).1
    (42, ⟨"exact", .idMatch ("NetUsage") "BackupAgent"⟩) (by decide)).1

end IOSTri
